import Mathlib

/-!
Verification development for the parking environment
(`highway_env/envs/parking_env.py`, class `ParkingEnv`).

The embedding below models, straight from the source:
feature-record extraction (`Vehicle.to_dict` column selection in the
configured feature order), the weighted p-norm reward
(`compute_reward`), the success predicate (`_is_success`), the
aggregate per-step reward (`_reward`), the terminal check
(`_is_terminal`), the info record (`_info`), the road construction
(`_create_road`) and vehicle spawning (`_create_vehicles`).
Machine floats are modelled as real numbers for the reward pipeline and
as rationals for the (exactly representable) road geometry.
-/

namespace ParkingEnv

/-- Feature names selectable by the reward configuration (columns of the
feature record returned by `to_dict`). -/
inductive Feature | x | y | vx | vy | cos_h | sin_h
deriving DecidableEq

/-- Feature record shared by vehicles and the goal landmark, plus the
`crashed` flag carried by vehicles. -/
structure VehicleState where
  x : ℝ
  y : ℝ
  vx : ℝ
  vy : ℝ
  cos_h : ℝ
  sin_h : ℝ
  crashed : Bool

instance : Inhabited VehicleState := ⟨⟨0, 0, 0, 0, 1, 0, false⟩⟩

/-- Column lookup in the feature record (`to_dict()[feature]`). -/
def featureVal (s : VehicleState) : Feature → ℝ
  | Feature.x => s.x
  | Feature.y => s.y
  | Feature.vx => s.vx
  | Feature.vy => s.vy
  | Feature.cos_h => s.cos_h
  | Feature.sin_h => s.sin_h

/-- The configuration entries of `ParkingEnv.default_config` that the
reward, termination and spawning logic read. -/
structure Config where
  reward_features : List Feature
  reward_weights : List ℝ
  success_goal_reward : ℝ
  duration : ℕ
  controlled_vehicles : ℕ

/-- The values set in `ParkingEnv.default_config`. -/
noncomputable def default_config : Config where
  reward_features := [Feature.x, Feature.y, Feature.vx, Feature.vy, Feature.cos_h, Feature.sin_h]
  reward_weights := [1 / 100, 0.3 / 100, 0, 0, 0.02, 0.02]
  success_goal_reward := 0.12
  duration := 100
  controlled_vehicles := 1

/-- Dot product of two equal-length vectors, as `np.dot`. -/
noncomputable def dotp (a b : List ℝ) : ℝ := (List.zipWith (· * ·) a b).sum

/-- `ParkingEnv.compute_reward`: extract both feature vectors in the
configured order, subtract, take absolute values, dot with the weight
vector, raise to the power `p` (real power) and negate. -/
noncomputable def compute_reward (cfg : Config) (vehicle desired_goal : VehicleState)
    (p : ℝ) : ℝ :=
  -(dotp ((List.zipWith (· - ·) (cfg.reward_features.map (featureVal vehicle))
      (cfg.reward_features.map (featureVal desired_goal))).map (fun z => |z|))
    cfg.reward_weights) ^ p

/-- The reward formula as the specification words it: the negated `p`-th
power of the sum over the configured features of (absolute feature
difference times the matching weight). -/
noncomputable def spec_reward (cfg : Config) (vehicle desired_goal : VehicleState)
    (p : ℝ) : ℝ :=
  -((List.zipWith (fun f w => |featureVal vehicle f - featureVal desired_goal f| * w)
      cfg.reward_features cfg.reward_weights).sum) ^ p

/-- `ParkingEnv._is_success`: the reward (at the default exponent 0.5)
strictly exceeds the negated success threshold. -/
def is_success (cfg : Config) (vehicle desired_goal : VehicleState) : Prop :=
  compute_reward cfg vehicle desired_goal (1 / 2) > -cfg.success_goal_reward

/-- `ParkingEnv._reward`: the action is ignored and the individual
rewards of the controlled vehicles are summed. -/
noncomputable def reward (action : ℝ × ℝ) (cfg : Config)
    (vehicles : List VehicleState) (goal : VehicleState) : ℝ :=
  (vehicles.map (fun v => compute_reward cfg v goal (1 / 2))).sum

/-- `ParkingEnv._is_terminal`: timeout, or some controlled vehicle
crashed, or every controlled vehicle is successful. -/
def is_terminal (cfg : Config) (steps : ℕ) (vehicles : List VehicleState)
    (goal : VehicleState) : Prop :=
  steps ≥ cfg.duration ∨ (∃ v ∈ vehicles, v.crashed = true) ∨
    (∀ v ∈ vehicles, is_success cfg v goal)

/-- Termination reasons named by the specification. -/
inductive Reason | TIMEOUT | COLLISION | SUCCESS
deriving DecidableEq

open Classical

/-- Modelled from the spec: the code's `_is_terminal` returns only a
boolean; the specification additionally names the reason, chosen in the
priority order TIMEOUT, then COLLISION, then SUCCESS. -/
noncomputable def termination_reason (cfg : Config) (steps : ℕ)
    (vehicles : List VehicleState) (goal : VehicleState) : Option Reason :=
  if steps ≥ cfg.duration then some Reason.TIMEOUT
  else if ∃ v ∈ vehicles, v.crashed = true then some Reason.COLLISION
  else if ∀ v ∈ vehicles, is_success cfg v goal then some Reason.SUCCESS
  else none

/-- Shape of the `is_success` entry of the info record: a single value
or a tuple of per-vehicle values. -/
inductive SuccessInfo where
  | single : Prop → SuccessInfo
  | multi : List Prop → SuccessInfo

/-- Discriminator for the shape of the info success entry. -/
def SuccessInfo.isSingle : SuccessInfo → Bool
  | SuccessInfo.single _ => true
  | SuccessInfo.multi _ => false

/-- `ParkingEnv._info`: when the observation type is a
`MultiAgentObservation` the entry is the tuple of per-vehicle success
values over the controlled vehicles in order; otherwise it is the single
success value of `self.vehicle` (the first controlled vehicle). -/
def info_is_success (cfg : Config) (multiAgentObs : Bool)
    (vehicles : List VehicleState) (goal : VehicleState) : SuccessInfo :=
  if multiAgentObs then SuccessInfo.multi (vehicles.map (fun v => is_success cfg v goal))
  else SuccessInfo.single (is_success cfg vehicles.headI goal)

/-- A straight lane segment as built by `_create_road`: start point, end
point and width.  All coordinates produced there are exactly
representable, so they are modelled as rationals. -/
structure StraightLane where
  start : ℚ × ℚ
  finish : ℚ × ℚ
  width : ℚ
deriving DecidableEq

/-- Lateral position of slot `k`: `(k - spots // 2) * (width + x_offset)
- width / 2` with `width = 4.0`, `x_offset = 0` and Python floor integer
division. -/
def lane_x (spots k : ℕ) : ℚ :=
  (((k : ℤ) - (spots : ℤ) / 2 : ℤ) : ℚ) * (4 + 0) - 4 / 2

/-- `ParkingEnv._create_road`: for each slot two opposing lane segments,
one through `(x, y_offset)..(x, y_offset + length)` and one through
`(x, -y_offset)..(x, -y_offset - length)` with `y_offset = 10`,
`length = 8`, `width = 4.0`, listed in creation order. -/
def create_road (spots : ℕ) : List StraightLane :=
  (List.range spots).flatMap fun k =>
    [⟨(lane_x spots k, 10), (lane_x spots k, 10 + 8), 4⟩,
     ⟨(lane_x spots k, -10), (lane_x spots k, -10 - 8), 4⟩]

/-- `ParkingEnv._create_vehicles`: vehicle `i` spawns at `(20 i, 0)`
with a sampled heading and speed 0 (hence zero velocity components),
appended to the controlled list in spawn order. -/
noncomputable def create_vehicles (cfg : Config) (heading : ℕ → ℝ) : List VehicleState :=
  (List.range cfg.controlled_vehicles).map fun (i : ℕ) =>
    { x := 20 * (i : ℝ), y := 0, vx := 0, vy := 0,
      cos_h := Real.cos (heading i), sin_h := Real.sin (heading i), crashed := false }

/-- The weighted sum of absolute feature differences under the default
configuration, restricted to the features with nonzero weight. -/
noncomputable def weighted_dist (v g : VehicleState) : ℝ :=
  |v.x - g.x| * (1 / 100) + |v.y - g.y| * (0.3 / 100) +
    |v.cos_h - g.cos_h| * 0.02 + |v.sin_h - g.sin_h| * 0.02

/-- A vehicle differing from the goal only in the zero-weight feature
`vx`. -/
def vC2 : VehicleState := ⟨0, 0, 1, 0, 1, 0, false⟩

/-- A goal state with zero pose and zero velocity. -/
def gC2 : VehicleState := ⟨0, 0, 0, 0, 1, 0, false⟩

/-- A configuration putting the success boundary at an exactly
representable reward: one feature of weight 1 and success threshold 2. -/
noncomputable def cfgB : Config where
  reward_features := [Feature.x]
  reward_weights := [1]
  success_goal_reward := 2
  duration := 100
  controlled_vehicles := 1

/-- A vehicle at distance 4 from the origin along `x`. -/
def vB : VehicleState := ⟨4, 0, 0, 0, 1, 0, false⟩

/-- A goal at the origin. -/
def gB : VehicleState := ⟨0, 0, 0, 0, 1, 0, false⟩

/-- A second vehicle state, used to populate two-vehicle lists. -/
def vA : VehicleState := ⟨0, 0, 0, 0, 1, 0, false⟩

/-- A vehicle far from the goal `gB`: its default-config reward is
`-2`, well below the success threshold. -/
def vFar : VehicleState := ⟨400, 0, 0, 0, 1, 0, false⟩

/-- A vehicle displaced by 1 along `x` from `vA`. -/
def vC7 : VehicleState := ⟨1, 0, 0, 0, 1, 0, false⟩

/-- The default configuration with the controlled-vehicle count set to
zero. -/
noncomputable def cfg0 : Config := { default_config with controlled_vehicles := 0 }

lemma dot_abs_diff_eq (v g : VehicleState) :
    ∀ (F : List Feature) (W : List ℝ),
      dotp (((F.map (featureVal v)).zipWith (· - ·) (F.map (featureVal g))).map
          (fun z => |z|)) W
        = (List.zipWith (fun f w => |featureVal v f - featureVal g f| * w) F W).sum := by
  intro F
  induction F with
  | nil => intro W; simp [dotp]
  | cons f F ih =>
    intro W
    cases W with
    | nil => simp [dotp]
    | cons w W => simpa [dotp] using congrArg (fun s => |featureVal v f - featureVal g f| * w + s) (ih W)

/-- Claim C1: for every vehicle, goal and exponent `p`, `compute_reward`
equals the negation of the `p`-th power of the dot product of the
elementwise absolute feature differences (in configured feature order)
with the weight vector. -/
theorem compute_reward_eq_spec_reward (cfg : Config) (v g : VehicleState) (p : ℝ) :
    compute_reward cfg v g p = spec_reward cfg v g p := by
  unfold compute_reward spec_reward
  rw [dot_abs_diff_eq]

lemma rpow_four_half : (4 : ℝ) ^ ((1 : ℝ) / 2) = 2 := by
  rw [show ((1 : ℝ) / 2) = (1 / (2 : ℝ)) from rfl, ← Real.sqrt_eq_rpow]
  rw [show (4 : ℝ) = 2 ^ 2 by norm_num, Real.sqrt_sq (by norm_num)]

/-- Claim C2 counterexample: under the default configuration the
vehicle `vC2` differs from the goal `gC2` in the configured feature
`vx`, yet the reward is exactly 0, because the configured weight of
`vx` is 0.  So reward 0 does not imply exact feature match. -/
theorem reward_zero_without_exact_match :
    compute_reward default_config vC2 gC2 (1 / 2) = 0 ∧
      ¬ (∀ f ∈ default_config.reward_features, featureVal vC2 f = featureVal gC2 f) := by
  constructor
  · simp [compute_reward, dotp, default_config, featureVal, vC2, gC2]
  · intro h
    have hvx := h Feature.vx (by simp [default_config])
    simp [featureVal, vC2, gC2] at hvx

lemma compute_reward_default_eq (v g : VehicleState) (p : ℝ) :
    compute_reward default_config v g p = -(weighted_dist v g) ^ p := by
  simp only [compute_reward, dotp, default_config, featureVal, List.map_cons, List.map_nil,
    List.zipWith_cons_cons, List.zipWith_nil_right, List.sum_cons, List.sum_nil]
  norm_num [weighted_dist]
  ring_nf

/-- Claim C2 amended: for every exponent `p > 0` the default-config
reward is nonpositive, and it is 0 exactly when vehicle and goal agree
on every feature with nonzero weight (`x`, `y`, `cos_h`, `sin_h`); the
zero-weight features `vx`, `vy` are unconstrained. -/
theorem reward_nonpos_and_zero_iff (v g : VehicleState) (p : ℝ) (hp : 0 < p) :
    compute_reward default_config v g p ≤ 0 ∧
      (compute_reward default_config v g p = 0 ↔
        (v.x = g.x ∧ v.y = g.y ∧ v.cos_h = g.cos_h ∧ v.sin_h = g.sin_h)) := by
  have hS : 0 ≤ weighted_dist v g := by unfold weighted_dist; positivity
  rw [compute_reward_default_eq]
  constructor
  · exact neg_nonpos.mpr (Real.rpow_nonneg hS p)
  constructor
  · intro h0
    have hpow : weighted_dist v g ^ p = 0 := by linarith [neg_eq_zero.mp h0]
    have hz : weighted_dist v g = 0 :=
      ((Real.rpow_eq_zero_iff_of_nonneg hS).mp hpow).1
    unfold weighted_dist at hz
    have h1 : |v.x - g.x| * (1 / 100) + |v.y - g.y| * (0.3 / 100) +
        |v.cos_h - g.cos_h| * 0.02 = 0 ∧ |v.sin_h - g.sin_h| * 0.02 = 0 :=
      (add_eq_zero_iff_of_nonneg (by positivity) (by positivity)).mp hz
    have h2 : |v.x - g.x| * (1 / 100) + |v.y - g.y| * (0.3 / 100) = 0 ∧
        |v.cos_h - g.cos_h| * 0.02 = 0 :=
      (add_eq_zero_iff_of_nonneg (by positivity) (by positivity)).mp h1.1
    have h3 : |v.x - g.x| * (1 / 100) = 0 ∧ |v.y - g.y| * (0.3 / 100) = 0 :=
      (add_eq_zero_iff_of_nonneg (by positivity) (by positivity)).mp h2.1
    refine ⟨?_, ?_, ?_, ?_⟩ <;> [skip; skip; skip; skip]
    · have := h3.1
      have hx : |v.x - g.x| = 0 := by
        rcases mul_eq_zero.mp this with h | h
        · exact h
        · norm_num at h
      exact sub_eq_zero.mp (abs_eq_zero.mp hx)
    · have := h3.2
      have hy : |v.y - g.y| = 0 := by
        rcases mul_eq_zero.mp this with h | h
        · exact h
        · norm_num at h
      exact sub_eq_zero.mp (abs_eq_zero.mp hy)
    · have := h2.2
      have hc : |v.cos_h - g.cos_h| = 0 := by
        rcases mul_eq_zero.mp this with h | h
        · exact h
        · norm_num at h
      exact sub_eq_zero.mp (abs_eq_zero.mp hc)
    · have := h1.2
      have hs : |v.sin_h - g.sin_h| = 0 := by
        rcases mul_eq_zero.mp this with h | h
        · exact h
        · norm_num at h
      exact sub_eq_zero.mp (abs_eq_zero.mp hs)
  · rintro ⟨e1, e2, e3, e4⟩
    have hz : weighted_dist v g = 0 := by
      unfold weighted_dist
      rw [e1, e2, e3, e4]
      simp
    rw [hz, Real.zero_rpow hp.ne', neg_zero]

/-- Claim C2 amended, witness: at `p = 1/2` with vehicle equal to the
goal the reward is nonpositive and the zero-reward characterization
holds. -/
theorem reward_nonpos_and_zero_iff_witness :
    compute_reward default_config gC2 gC2 (1 / 2) ≤ 0 ∧
      (compute_reward default_config gC2 gC2 (1 / 2) = 0 ↔
        (gC2.x = gC2.x ∧ gC2.y = gC2.y ∧ gC2.cos_h = gC2.cos_h ∧ gC2.sin_h = gC2.sin_h)) :=
  reward_nonpos_and_zero_iff gC2 gC2 (1 / 2) (by norm_num)

/-- Claim C4: `is_success` holds exactly when the reward strictly
exceeds the negated success threshold, and a reward exactly at the
boundary `-success_goal_reward` is not a success. -/
theorem is_success_iff_reward_gt (cfg : Config) (v g : VehicleState) :
    (is_success cfg v g ↔ compute_reward cfg v g (1 / 2) > -cfg.success_goal_reward) ∧
      (compute_reward cfg v g (1 / 2) = -cfg.success_goal_reward → ¬ is_success cfg v g) := by
  refine ⟨Iff.rfl, fun h hs => ?_⟩
  rw [is_success, h] at hs
  exact lt_irrefl _ hs

/-- Claim C4, witness: a vehicle whose reward is exactly the negated
threshold (reward `-(4 ^ (1/2)) = -2` against threshold 2) is not
successful. -/
theorem is_success_iff_reward_gt_witness : ¬ is_success cfgB vB gB := by
  refine (is_success_iff_reward_gt cfgB vB gB).2 ?_
  have h4 : compute_reward cfgB vB gB (1 / 2) = -((4 : ℝ) ^ ((1 : ℝ) / 2)) := by
    simp [compute_reward, dotp, cfgB, featureVal, vB, gB]
  have hthr : cfgB.success_goal_reward = 2 := rfl
  rw [h4, rpow_four_half, hthr]

/-- Claim C5 counterexample: with two controlled vehicles but a
non-multi-agent observation type, the info success entry is still a
single boolean (for the first controlled vehicle), not an ordered
sequence of length 2; the branch in `_info` tests the observation type,
not the vehicle count. -/
theorem info_single_with_two_vehicles :
    [vA, vB].length = 2 ∧
      (info_is_success default_config false [vA, vB] gB).isSingle = true ∧
      info_is_success default_config false [vA, vB] gB
        = SuccessInfo.single (is_success default_config vA gB) :=
  ⟨rfl, rfl, rfl⟩

/-- Claim C5 amended: the info success entry is the ordered list of
per-vehicle success values (spawn order, length = controlled-vehicle
count) exactly when the observation type is multi-agent, and otherwise
a single boolean for the first controlled vehicle, regardless of the
vehicle count. -/
theorem info_is_success_shape (cfg : Config) (vehicles : List VehicleState)
    (goal : VehicleState) :
    info_is_success cfg true vehicles goal
        = SuccessInfo.multi (vehicles.map (fun v => is_success cfg v goal)) ∧
      (vehicles.map (fun v => is_success cfg v goal)).length = vehicles.length ∧
      info_is_success cfg false vehicles goal
        = SuccessInfo.single (is_success cfg vehicles.headI goal) :=
  ⟨rfl, by simp, rfl⟩

/-- Claim C6: the per-step aggregate reward is the unweighted sum of
the individual rewards of the controlled vehicles, for every action;
replicating one vehicle `n` times multiplies the aggregate by `n`. -/
theorem reward_eq_sum (action : ℝ × ℝ) (cfg : Config)
    (vehicles : List VehicleState) (goal : VehicleState) :
    reward action cfg vehicles goal
        = (vehicles.map (fun v => compute_reward cfg v goal (1 / 2))).sum ∧
      (∀ (n : ℕ) (v : VehicleState),
        reward action cfg (List.replicate n v) goal
          = n * compute_reward cfg v goal (1 / 2)) := by
  refine ⟨rfl, fun n v => ?_⟩
  simp [reward, List.map_replicate, List.sum_replicate, nsmul_eq_mul]

/-- Claim C3: the episode is terminal exactly when timeout, some crash,
or all-vehicle success holds; whenever the step counter has reached the
duration the spec-ordered reason is TIMEOUT (highest priority); and in
an episode with no crash and no all-vehicle success the terminal check
first fires exactly at step `duration`. -/
theorem is_terminal_characterization (cfg : Config) (vehicles : List VehicleState)
    (goal : VehicleState)
    (hnc : ∀ v ∈ vehicles, v.crashed = false)
    (hns : ¬ ∀ v ∈ vehicles, is_success cfg v goal) :
    (∀ steps, is_terminal cfg steps vehicles goal ↔
        (steps ≥ cfg.duration ∨ (∃ v ∈ vehicles, v.crashed = true) ∨
          (∀ v ∈ vehicles, is_success cfg v goal))) ∧
      (∀ steps, steps ≥ cfg.duration →
        termination_reason cfg steps vehicles goal = some Reason.TIMEOUT) ∧
      (∀ steps, steps < cfg.duration → ¬ is_terminal cfg steps vehicles goal) ∧
      is_terminal cfg cfg.duration vehicles goal := by
  refine ⟨fun steps => Iff.rfl, fun steps hs => ?_, fun steps hs h => ?_, ?_⟩
  · unfold termination_reason
    rw [if_pos hs]
  · simp only [is_terminal] at h
    rcases h with h | ⟨v, hv, hcr⟩ | h
    · omega
    · rw [hnc v hv] at hcr
      exact Bool.false_ne_true hcr
    · exact hns h
  · exact Or.inl (le_refl _)

lemma vFar_not_success : ¬ is_success default_config vFar gB := by
  rw [is_success, compute_reward_default_eq]
  have hd : weighted_dist vFar gB = 4 := by
    simp [weighted_dist, vFar, gB]
    norm_num
  rw [hd, rpow_four_half]
  simp only [default_config]
  norm_num

/-- Claim C3, witness: one uncrashed, unsuccessful vehicle under the
default configuration (duration 100): not terminal at step 99, terminal
at step 100, with reason TIMEOUT. -/
theorem is_terminal_characterization_witness :
    is_terminal default_config 100 [vFar] gB ∧
      ¬ is_terminal default_config 99 [vFar] gB ∧
      termination_reason default_config 100 [vFar] gB = some Reason.TIMEOUT := by
  have h := is_terminal_characterization default_config [vFar] gB
      (by intro v hv; simp only [List.mem_singleton] at hv; rw [hv]; rfl)
      (by intro hall; exact vFar_not_success (hall vFar (by simp)))
  have hd : default_config.duration = 100 := rfl
  refine ⟨hd ▸ h.2.2.2, h.2.2.1 99 (by rw [hd]; omega), h.2.1 100 (by rw [hd])⟩

lemma sum_zipWith_mul_nonneg (a : List ℝ) : ∀ (w : List ℝ),
    (∀ j (hj : j < a.length), 0 ≤ a[j]) → (∀ j (hj : j < w.length), 0 ≤ w[j]) →
    0 ≤ (List.zipWith (· * ·) a w).sum := by
  induction a with
  | nil => intro w _ _; simp
  | cons x xs ih =>
    intro w ha hw
    cases w with
    | nil => simp
    | cons z zs =>
      simp only [List.zipWith_cons_cons, List.sum_cons]
      have hx : 0 ≤ x := by simpa using ha 0 (by simp)
      have hz : 0 ≤ z := by simpa using hw 0 (by simp)
      have ht : 0 ≤ (List.zipWith (· * ·) xs zs).sum := by
        apply ih
        · intro j hj
          simpa using ha (j + 1) (by simpa using Nat.succ_lt_succ hj)
        · intro j hj
          simpa using hw (j + 1) (by simpa using Nat.succ_lt_succ hj)
      have hxz := mul_nonneg hx hz
      linarith

lemma sum_zipWith_mul_le (a : List ℝ) : ∀ (b w : List ℝ),
    a.length = b.length →
    (∀ j (h1 : j < a.length) (h2 : j < b.length), a[j] ≤ b[j]) →
    (∀ j (hj : j < w.length), 0 ≤ w[j]) →
    (List.zipWith (· * ·) a w).sum ≤ (List.zipWith (· * ·) b w).sum := by
  induction a with
  | nil =>
    intro b w hlen _ _
    have hb : b = [] := by simpa using hlen.symm
    simp [hb]
  | cons x xs ih =>
    intro b w hlen hle hw
    cases b with
    | nil => simp at hlen
    | cons y ys =>
      cases w with
      | nil => simp
      | cons z zs =>
        simp only [List.zipWith_cons_cons, List.sum_cons]
        have h0 : x ≤ y := by simpa using hle 0 (by simp) (by simp)
        have hz : 0 ≤ z := by simpa using hw 0 (by simp)
        have htail : (List.zipWith (· * ·) xs zs).sum ≤ (List.zipWith (· * ·) ys zs).sum := by
          apply ih
          · simpa using hlen
          · intro j h1 h2
            simpa using hle (j + 1) (by simpa using Nat.succ_lt_succ h1)
              (by simpa using Nat.succ_lt_succ h2)
          · intro j hj
            simpa using hw (j + 1) (by simpa using Nat.succ_lt_succ hj)
        have hhead : x * z ≤ y * z := mul_le_mul_of_nonneg_right h0 hz
        linarith

lemma sum_zipWith_mul_lt (a : List ℝ) : ∀ (b w : List ℝ) (i : ℕ),
    a.length = b.length →
    (∀ j (h1 : j < a.length) (h2 : j < b.length), a[j] ≤ b[j]) →
    (∀ j (hj : j < w.length), 0 ≤ w[j]) →
    ∀ (hia : i < a.length) (hib : i < b.length) (hiw : i < w.length),
      a[i] < b[i] → 0 < w[i] →
      (List.zipWith (· * ·) a w).sum < (List.zipWith (· * ·) b w).sum := by
  induction a with
  | nil =>
    intro b w i _ _ _ hia
    exact absurd hia (by simp)
  | cons x xs ih =>
    intro b w i hlen hle hw hia hib hiw hstrict hwpos
    cases b with
    | nil => simp at hlen
    | cons y ys =>
      cases w with
      | nil => simp at hiw
      | cons z zs =>
        simp only [List.zipWith_cons_cons, List.sum_cons]
        cases i with
        | zero =>
          have h0 : x < y := by simpa using hstrict
          have hz : 0 < z := by simpa using hwpos
          have hhead : x * z < y * z := mul_lt_mul_of_pos_right h0 hz
          have htail : (List.zipWith (· * ·) xs zs).sum ≤ (List.zipWith (· * ·) ys zs).sum := by
            apply sum_zipWith_mul_le
            · simpa using hlen
            · intro j h1 h2
              simpa using hle (j + 1) (by simpa using Nat.succ_lt_succ h1)
                (by simpa using Nat.succ_lt_succ h2)
            · intro j hj
              simpa using hw (j + 1) (by simpa using Nat.succ_lt_succ hj)
          linarith
        | succ j =>
          have hhead : x * z ≤ y * z :=
            mul_le_mul_of_nonneg_right (by simpa using hle 0 (by simp) (by simp))
              (by simpa using hw 0 (by simp))
          have htail : (List.zipWith (· * ·) xs zs).sum < (List.zipWith (· * ·) ys zs).sum := by
            apply ih ys zs j
            · simpa using hlen
            · intro m h1 h2
              simpa using hle (m + 1) (by simpa using Nat.succ_lt_succ h1)
                (by simpa using Nat.succ_lt_succ h2)
            · intro m hm
              simpa using hw (m + 1) (by simpa using Nat.succ_lt_succ hm)
            · simpa using hstrict
            · simpa using hwpos
          linarith

lemma abs_diff_map (v g : VehicleState) (F : List Feature) :
    ((F.map (featureVal v)).zipWith (· - ·) (F.map (featureVal g))).map (fun z => |z|)
      = F.map (fun f => |featureVal v f - featureVal g f|) := by
  induction F with
  | nil => simp
  | cons f F ih => simp [ih]

/-- Claim C7: with nonnegative configured weights, the reward is
strictly decreasing in the absolute difference of any feature whose
weight is nonzero: if all other per-feature absolute differences are
held fixed and that feature's absolute difference strictly increases,
the reward strictly decreases. -/
theorem compute_reward_strict_anti (cfg : Config) (v v' g : VehicleState) (p : ℝ) (i : ℕ)
    (hiF : i < cfg.reward_features.length)
    (hiW : i < cfg.reward_weights.length)
    (hw : ∀ j (hj : j < cfg.reward_weights.length), 0 ≤ cfg.reward_weights[j])
    (hwi : cfg.reward_weights[i] ≠ 0)
    (hother : ∀ j (hj : j < cfg.reward_features.length), j ≠ i →
      |featureVal v (cfg.reward_features[j]) - featureVal g (cfg.reward_features[j])|
        = |featureVal v' (cfg.reward_features[j]) - featureVal g (cfg.reward_features[j])|)
    (hstrict : |featureVal v (cfg.reward_features[i]) - featureVal g (cfg.reward_features[i])|
        < |featureVal v' (cfg.reward_features[i]) - featureVal g (cfg.reward_features[i])|)
    (hp : 0 < p) :
    compute_reward cfg v' g p < compute_reward cfg v g p := by
  simp only [compute_reward, dotp, abs_diff_map]
  have hDlen : (cfg.reward_features.map
      (fun f => |featureVal v f - featureVal g f|)).length
      = (cfg.reward_features.map
        (fun f => |featureVal v' f - featureVal g f|)).length := by
    simp
  have hnn : 0 ≤ (List.zipWith (· * ·)
      (cfg.reward_features.map (fun f => |featureVal v f - featureVal g f|))
      cfg.reward_weights).sum := by
    apply sum_zipWith_mul_nonneg
    · intro j hj
      rw [List.getElem_map]
      exact abs_nonneg _
    · exact hw
  have hLE : ∀ j (h1 : j < (cfg.reward_features.map
        (fun f => |featureVal v f - featureVal g f|)).length)
      (h2 : j < (cfg.reward_features.map
        (fun f => |featureVal v' f - featureVal g f|)).length),
      (cfg.reward_features.map (fun f => |featureVal v f - featureVal g f|))[j]
        ≤ (cfg.reward_features.map (fun f => |featureVal v' f - featureVal g f|))[j] := by
    intro j h1 h2
    rw [List.getElem_map, List.getElem_map]
    by_cases hji : j = i
    · subst hji
      exact le_of_lt hstrict
    · exact le_of_eq (hother j (by simpa using h1) hji)
  have hia : i < (cfg.reward_features.map
      (fun f => |featureVal v f - featureVal g f|)).length := by simpa using hiF
  have hib : i < (cfg.reward_features.map
      (fun f => |featureVal v' f - featureVal g f|)).length := by simpa using hiF
  have hAi : (cfg.reward_features.map (fun f => |featureVal v f - featureVal g f|))[i]
      < (cfg.reward_features.map (fun f => |featureVal v' f - featureVal g f|))[i] := by
    rw [List.getElem_map, List.getElem_map]
    exact hstrict
  have hwpos : 0 < cfg.reward_weights[i] := lt_of_le_of_ne (hw i hiW) (Ne.symm hwi)
  have hdot := sum_zipWith_mul_lt
    (cfg.reward_features.map (fun f => |featureVal v f - featureVal g f|))
    (cfg.reward_features.map (fun f => |featureVal v' f - featureVal g f|))
    cfg.reward_weights i hDlen hLE hw hia hib hiW hAi hwpos
  exact neg_lt_neg (Real.rpow_lt_rpow hnn hdot hp)

/-- Claim C7, witness: under the default configuration (weight of `x`
is 1/100 > 0), moving the vehicle from the goal position to distance 1
along `x` strictly decreases the reward. -/
theorem compute_reward_strict_anti_witness :
    compute_reward default_config vC7 vA (1 / 2) < compute_reward default_config vA vA (1 / 2) := by
  refine compute_reward_strict_anti default_config vA vC7 vA (1 / 2) 0
    ?_ ?_ ?_ ?_ ?_ ?_ ?_
  · simp [default_config]
  · simp [default_config]
  · intro j hj
    simp only [default_config] at hj ⊢
    simp only [List.length_cons, List.length_nil] at hj
    interval_cases j <;> norm_num
  · simp only [default_config]
    norm_num
  · intro j hj hne
    simp only [default_config] at hj ⊢
    simp only [List.length_cons, List.length_nil] at hj
    interval_cases j
    · exact absurd rfl hne
    all_goals simp [featureVal, vA, vC7]
  · simp only [default_config]
    simp [featureVal, vA, vC7]
  · norm_num

lemma create_road_length (spots : ℕ) : (create_road spots).length = 2 * spots := by
  have hsum : ∀ (L : List ℕ), (L.map (fun (_ : ℕ) => 2)).sum = 2 * L.length := by
    intro L
    induction L with
    | nil => simp
    | cons a L ih =>
      simp only [List.map_cons, List.sum_cons, ih, List.length_cons]
      omega
  have hf : (List.length ∘ fun k =>
      ([⟨(lane_x spots k, 10), (lane_x spots k, 10 + 8), 4⟩,
        ⟨(lane_x spots k, -10), (lane_x spots k, -10 - 8), 4⟩] : List StraightLane))
      = fun (_ : ℕ) => 2 := funext fun k => rfl
  simp only [create_road, List.length_flatMap, hf, hsum, List.length_range]

/-- Claim C8: the builder creates exactly two lane segments per slot
(so `2 * spots` in total), slot `k` sitting at lateral position
`lane_x spots k = (k - spots / 2) * (4 + 0) - 4 / 2` with floor integer
division; and for 15 slots it yields exactly 30 segments, 15 with
positive-y extent and 15 with negative-y extent, with the lateral
positions symmetric around `x = -2 = -width / 2` (reflecting every
position about `-2` reverses the position list). -/
theorem create_road_geometry :
    (∀ spots, (create_road spots).length = 2 * spots) ∧
      (∀ spots k, k < spots →
        (StraightLane.mk (lane_x spots k, 10) (lane_x spots k, 10 + 8) 4 ∈ create_road spots ∧
          StraightLane.mk (lane_x spots k, -10) (lane_x spots k, -10 - 8) 4 ∈ create_road spots)) ∧
      (create_road 15).length = 30 ∧
      (create_road 15).countP (fun l => decide (0 < l.start.2 ∧ 0 < l.finish.2)) = 15 ∧
      (create_road 15).countP (fun l => decide (l.start.2 < 0 ∧ l.finish.2 < 0)) = 15 ∧
      ((create_road 15).map (fun l => l.start.1)).map (fun x => -4 - x)
        = ((create_road 15).map (fun l => l.start.1)).reverse := by
  have hrange : List.range 15 = [0, 1, 2, 3, 4, 5, 6, 7, 8, 9, 10, 11, 12, 13, 14] := rfl
  refine ⟨create_road_length, fun spots k hk => ?_, create_road_length 15, ?_, ?_, ?_⟩
  · constructor
    · simp only [create_road, List.mem_flatMap]
      exact ⟨k, List.mem_range.mpr hk, by simp⟩
    · simp only [create_road, List.mem_flatMap]
      exact ⟨k, List.mem_range.mpr hk, by simp⟩
  · simp only [create_road, hrange, List.flatMap_cons, List.flatMap_nil, List.append_nil,
      List.cons_append, List.nil_append]
    norm_num [List.countP_cons, List.countP_nil]
  · simp only [create_road, hrange, List.flatMap_cons, List.flatMap_nil, List.append_nil,
      List.cons_append, List.nil_append]
    norm_num [List.countP_cons, List.countP_nil]
  · simp only [create_road, hrange, List.flatMap_cons, List.flatMap_nil, List.append_nil,
      List.cons_append, List.nil_append, List.map_cons, List.map_nil, List.reverse_cons,
      List.reverse_nil]
    norm_num [lane_x]

/-- Claim C8, witness: the two lane segments of slot 0 among 15 slots
(at lateral position `lane_x 15 0 = -30`) are both in the built
network. -/
theorem create_road_geometry_witness :
    StraightLane.mk (lane_x 15 0, 10) (lane_x 15 0, 10 + 8) 4 ∈ create_road 15 ∧
      StraightLane.mk (lane_x 15 0, -10) (lane_x 15 0, -10 - 8) 4 ∈ create_road 15 :=
  create_road_geometry.2.1 15 0 (by norm_num)

/-- Claim C9 counterexample: a non-positive slot count is not rejected
with a configuration error: `create_road 0` silently returns the empty
lane network (the code contains no validation and raises nothing). -/
theorem create_road_zero_silent_empty :
    create_road 0 = [] ∧ (create_road 0).length = 0 :=
  ⟨rfl, rfl⟩

/-- Claim C9 amended: the code performs no configuration validation:
the road builder is total, accepting every slot count and producing
`2 * spots` lane segments, so a non-positive slot count silently yields
the empty network instead of failing fast (and in `_reset` the slot
count is the hardcoded default 15, never read from the
configuration). -/
theorem create_road_no_validation :
    (∀ spots, (create_road spots).length = 2 * spots) ∧ create_road 0 = [] :=
  ⟨create_road_length, rfl⟩

/-- Claim C10: with a controlled-vehicle count of 0 the spawned
controlled list is empty, the aggregate reward is 0 for every action,
and the terminal check holds at every step, the all-vehicles success
condition being vacuous over the empty list. -/
theorem zero_vehicles_reward_and_terminal (cfg : Config) (heading : ℕ → ℝ)
    (goal : VehicleState) (hcv : cfg.controlled_vehicles = 0) :
    create_vehicles cfg heading = [] ∧
      (∀ action : ℝ × ℝ, reward action cfg (create_vehicles cfg heading) goal = 0) ∧
      (∀ steps : ℕ, is_terminal cfg steps (create_vehicles cfg heading) goal) := by
  have he : create_vehicles cfg heading = [] := by
    simp [create_vehicles, hcv]
  refine ⟨he, fun action => ?_, fun steps => ?_⟩
  · rw [he]
    simp [reward]
  · rw [he]
    exact Or.inr (Or.inr (by simp))

/-- Claim C10, witness: the zero-vehicle conclusions evaluated at the
default configuration with count 0, the zero action and step 0. -/
theorem zero_vehicles_reward_and_terminal_witness :
    create_vehicles cfg0 (fun _ => 0) = [] ∧
      reward (0, 0) cfg0 (create_vehicles cfg0 (fun _ => 0)) gB = 0 ∧
      is_terminal cfg0 0 (create_vehicles cfg0 (fun _ => 0)) gB :=
  ⟨(zero_vehicles_reward_and_terminal cfg0 (fun _ => 0) gB rfl).1,
    (zero_vehicles_reward_and_terminal cfg0 (fun _ => 0) gB rfl).2.1 (0, 0),
    (zero_vehicles_reward_and_terminal cfg0 (fun _ => 0) gB rfl).2.2 0⟩

end ParkingEnv
